import Mathlib

/-!
Shallow embedding of the viesco patch utility (src/viesco.py) and proofs of
the specification claims about its orchestration core.

Conventions used throughout:
* Python tuples of ints become `List Nat`; out-of-range tuple indexing, which
  raises `IndexError` in Python, is modelled with `Except Unit`.
* Filesystem paths become `List String` (their components); the on-disk file
  set becomes a `List (List String)`.
* `input()` streams become explicit `List String` arguments.
* Python `int(...)` parsing is modelled by `pyInt?` (ASCII digits, optional
  sign, surrounding whitespace stripped, single underscores between digits),
  returning `none` where Python raises `ValueError`.
-/

namespace Viesco

/-! ### Python string primitives

Models of the Python library functions the source calls, written as structural
recursions so that concrete inputs evaluate inside the kernel. -/

/-- Python str.split(sep) for a single-character separator: "a,,b".split(",")
is ["a", "", "b"] and "".split(",") is [""]. -/
def splitOnChar (sep : Char) : List Char → List (List Char)
  | [] => [[]]
  | c :: rest =>
    let groups := splitOnChar sep rest
    if c = sep then [] :: groups
    else
      match groups with
      | [] => [[c]]
      | g :: gs => (c :: g) :: gs

/-- Whitespace stripped by Python int() on ASCII input. -/
def isPySpace (c : Char) : Bool :=
  c = ' ' || c = '\t' || c = '\n' || c = '\r' || c = '\x0b' || c = '\x0c'

/-- Digit run of a Python int literal: ASCII digits with single underscores
allowed between digits ("1_0" parses, "1_", "_1" and "1__0" do not). -/
def pyDigits : Nat → List Char → Option Nat
  | acc, [] => some acc
  | acc, c :: rest =>
    if c.isDigit then pyDigits (10 * acc + (c.toNat - 48)) rest
    else if c = '_' then
      match rest with
      | d :: rest2 =>
        if d.isDigit then pyDigits (10 * acc + (d.toNat - 48)) rest2 else none
      | [] => none
    else none

/-- Python int(str) on ASCII input: surrounding whitespace is ignored, an
optional single sign precedes the digits, and the digit run must be
non-empty.  none models a ValueError. -/
def pyInt? (s : String) : Option Int :=
  let cs := ((s.toList.dropWhile (fun c => isPySpace c)).reverse.dropWhile
    (fun c => isPySpace c)).reverse
  match cs with
  | [] => none
  | c :: body =>
    if c = '-' then
      match body with
      | [] => none
      | d :: _ =>
        if d.isDigit then (pyDigits 0 body).map (fun n => -(n : Int)) else none
    else if c = '+' then
      match body with
      | [] => none
      | d :: _ =>
        if d.isDigit then (pyDigits 0 body).map (fun n => (n : Int)) else none
    else if c.isDigit then (pyDigits 0 cs).map (fun n => (n : Int))
    else none

/-! ### Version parsing and comparison (viesco.py, Patcher.check_version) -/

/-- Python: tuple(map(int, s.split("."))).  none models a ValueError escaping
from int() on a malformed component; a component parsing negative cannot occur
in a version string, so components are truncated to Nat. -/
def parseVersion? (s : String) : Option (List Nat) :=
  ((splitOnChar '.' s.toList).mapM (fun comp => pyInt? (String.mk comp))).map
    (List.map Int.toNat)

/-- Python tuple indexing: raises IndexError when out of range. -/
def tupleGet (t : List Nat) (i : Nat) : Except Unit Nat :=
  match t.get? i with
  | some v => Except.ok v
  | none => Except.error ()

/-- The boolean condition of Patcher.check_version (viesco.py:142-146), with
Python's left-to-right evaluation and short-circuiting made explicit:
  current[0] >= minimal[0]
  and (len(minimal) < 2 or current[1] >= minimal[1])
  and (len(minimal) < 3 or current[2] >= minimal[2])
`Except.ok b` means the condition evaluated to `b`; `Except.error ()` means an
IndexError escaped.  `ok true` = the check accepts (no skip-confirmation);
`ok false` = the skip-confirmation flow is triggered. -/
def checkVersionCond (minimal current : List Nat) : Except Unit Bool :=
  match tupleGet current 0, tupleGet minimal 0 with
  | Except.error _, _ => Except.error ()
  | Except.ok _, Except.error _ => Except.error ()
  | Except.ok c0, Except.ok m0 =>
    if c0 < m0 then Except.ok false
    else if minimal.length < 2 then Except.ok true
    else
      match tupleGet current 1, tupleGet minimal 1 with
      | Except.error _, _ => Except.error ()
      | Except.ok _, Except.error _ => Except.error ()
      | Except.ok c1, Except.ok m1 =>
        if c1 < m1 then Except.ok false
        else if minimal.length < 3 then Except.ok true
        else
          match tupleGet current 2, tupleGet minimal 2 with
          | Except.error _, _ => Except.error ()
          | Except.ok _, Except.error _ => Except.error ()
          | Except.ok c2, Except.ok m2 => Except.ok (decide (m2 ≤ c2))

/-- Patcher.check_version at the string level (viesco.py:139-150).
Except.error covers any exception escaping the method (ValueError from int()
while parsing, or IndexError from tuple indexing). -/
def check_version (minimal_str host_version : String) : Except Unit Bool :=
  match parseVersion? minimal_str, parseVersion? host_version with
  | some minimal, some current => checkVersionCond minimal current
  | _, _ => Except.error ()

theorem checkVersionCond_one (m0 : Nat) (c0 : Nat) (rest : List Nat) :
    checkVersionCond [m0] (c0 :: rest) = Except.ok (decide (m0 ≤ c0)) := by
  by_cases h0 : c0 < m0 <;>
    simp only [checkVersionCond, tupleGet, List.get?, h0, if_true, if_false,
      List.length_cons, List.length_nil, if_pos, if_neg, Nat.not_lt] <;>
  refine congrArg Except.ok ?_ <;> rw [Bool.eq_iff_iff] <;>
    simp only [decide_eq_true_eq, Bool.false_eq_true, eq_self_iff_true] <;>
  first
  | (rw [false_iff]; omega)
  | (rw [true_iff]; omega)
  | (constructor <;> intro h <;> omega)

theorem checkVersionCond_two (m0 m1 c0 c1 : Nat) (rest : List Nat) :
    checkVersionCond [m0, m1] (c0 :: c1 :: rest)
      = Except.ok (decide (m0 ≤ c0 ∧ m1 ≤ c1)) := by
  by_cases h0 : c0 < m0 <;> by_cases h1 : c1 < m1 <;>
    simp only [checkVersionCond, tupleGet, List.get?, h0, h1, if_true, if_false,
      List.length_cons, List.length_nil, if_pos, if_neg, Nat.not_lt] <;>
  refine congrArg Except.ok ?_ <;> rw [Bool.eq_iff_iff] <;>
    simp only [decide_eq_true_eq, Bool.false_eq_true, eq_self_iff_true] <;>
  first
  | (rw [false_iff]; omega)
  | (rw [true_iff]; omega)
  | (constructor <;> intro h <;> omega)

theorem checkVersionCond_three (m0 m1 m2 c0 c1 c2 : Nat) (rest : List Nat) :
    checkVersionCond [m0, m1, m2] (c0 :: c1 :: c2 :: rest)
      = Except.ok (decide (m0 ≤ c0 ∧ m1 ≤ c1 ∧ m2 ≤ c2)) := by
  by_cases h0 : c0 < m0 <;> by_cases h1 : c1 < m1 <;>
    simp only [checkVersionCond, tupleGet, List.get?, h0, h1, if_true, if_false,
      List.length_cons, List.length_nil, if_pos, if_neg, Nat.not_lt] <;>
  refine congrArg Except.ok ?_ <;> rw [Bool.eq_iff_iff] <;>
    simp only [decide_eq_true_eq, Bool.false_eq_true, eq_self_iff_true] <;>
  first
  | (rw [false_iff]; omega)
  | (rw [true_iff]; omega)
  | (constructor <;> intro h <;> omega)

theorem checkVersionCond_two_short (m0 m1 c0 : Nat) :
    checkVersionCond [m0, m1] [c0]
      = if c0 < m0 then Except.ok false else Except.error () := by
  by_cases h0 : c0 < m0 <;> simp [checkVersionCond, tupleGet, h0]

theorem checkVersionCond_three_short1 (m0 m1 m2 c0 : Nat) :
    checkVersionCond [m0, m1, m2] [c0]
      = if c0 < m0 then Except.ok false else Except.error () := by
  by_cases h0 : c0 < m0 <;> simp [checkVersionCond, tupleGet, h0]

theorem checkVersionCond_three_short2 (m0 m1 m2 c0 c1 : Nat) :
    checkVersionCond [m0, m1, m2] [c0, c1]
      = if c0 < m0 then Except.ok false
        else if c1 < m1 then Except.ok false else Except.error () := by
  by_cases h0 : c0 < m0 <;> by_cases h1 : c1 < m1 <;>
    simp [checkVersionCond, tupleGet, h0, h1]

theorem parse_example_12 : parseVersion? "1.2" = some [1, 2] := rfl

theorem parse_example_129 : parseVersion? "1.2.9" = some [1, 2, 9] := rfl

/-- C2: checkVersion accepts (the condition holds, so the skip-confirmation
flow is not triggered) iff every component declared in the minimum is <= the
corresponding installed component; components of the installed version beyond
the minimum's declared length are never inspected.  The domain is restricted
to installed versions at least as long as the minimum: on shorter installed
versions the code raises instead (see C3).  Includes the spec's concrete
examples: minimum "1.2" accepts "1.2.9" and "1.2", rejects "1.1.9". -/
theorem check_version_componentwise (minimal current : List Nat)
    (hmin : 1 ≤ minimal.length) (hmax : minimal.length ≤ 3)
    (hlen : minimal.length ≤ current.length) :
    ((checkVersionCond minimal current = Except.ok true) ↔
      ∀ i, i < minimal.length → minimal.getD i 0 ≤ current.getD i 0)
    ∧ check_version "1.2" "1.2.9" = Except.ok true
    ∧ check_version "1.2" "1.2" = Except.ok true
    ∧ check_version "1.2" "1.1.9" = Except.ok false := by
  refine ⟨?_, rfl, rfl, rfl⟩
  match minimal, current with
  | [], _ => simp at hmin
  | _ :: _ :: _ :: _ :: _, _ => simp at hmax
  | m0 :: _, [] => simp at hlen
  | [m0], c0 :: crest =>
    rw [checkVersionCond_one]
    simp only [Except.ok.injEq, decide_eq_true_eq]
    constructor
    · intro h i hi
      simp only [List.length_cons, List.length_nil] at hi
      have hi0 : i = 0 := by omega
      subst hi0
      simpa using h
    · intro h
      simpa using h 0 (by simp)
  | [m0, m1], [c0] => simp at hlen
  | [m0, m1], c0 :: c1 :: crest =>
    rw [checkVersionCond_two]
    simp only [Except.ok.injEq, decide_eq_true_eq]
    constructor
    · intro h i hi
      simp only [List.length_cons, List.length_nil] at hi
      have hi01 : i = 0 ∨ i = 1 := by omega
      rcases hi01 with hi0 | hi1
      · subst hi0; simpa using h.1
      · subst hi1; simpa using h.2
    · intro h
      exact ⟨by simpa using h 0 (by simp), by simpa using h 1 (by simp)⟩
  | [m0, m1, m2], [c0] => simp at hlen
  | [m0, m1, m2], [c0, c1] => simp at hlen
  | [m0, m1, m2], c0 :: c1 :: c2 :: crest =>
    rw [checkVersionCond_three]
    simp only [Except.ok.injEq, decide_eq_true_eq]
    constructor
    · intro h i hi
      simp only [List.length_cons, List.length_nil] at hi
      have hi012 : i = 0 ∨ i = 1 ∨ i = 2 := by omega
      rcases hi012 with hi0 | hi1 | hi2
      · subst hi0; simpa using h.1
      · subst hi1; simpa using h.2.1
      · subst hi2; simpa using h.2.2
    · intro h
      exact ⟨by simpa using h 0 (by simp), by simpa using h 1 (by simp),
        by simpa using h 2 (by simp)⟩

theorem check_version_componentwise_witness :
    (1 ≤ ([1, 2] : List Nat).length) ∧ (([1, 2] : List Nat).length ≤ 3) ∧
      (([1, 2] : List Nat).length ≤ ([1, 2, 9] : List Nat).length) ∧
      (((checkVersionCond [1, 2] [1, 2, 9] = Except.ok true) ↔
        ∀ i, i < ([1, 2] : List Nat).length →
          ([1, 2] : List Nat).getD i 0 ≤ ([1, 2, 9] : List Nat).getD i 0)
      ∧ check_version "1.2" "1.2.9" = Except.ok true
      ∧ check_version "1.2" "1.2" = Except.ok true
      ∧ check_version "1.2" "1.1.9" = Except.ok false) :=
  ⟨by decide, by decide, by decide,
    check_version_componentwise [1, 2] [1, 2, 9] (by decide) (by decide)
      (by decide)⟩

/-- C3 counterexample: the claim says checkVersion never raises, even when the
installed version has fewer components than the minimum declares; but for
minimum "1.2" and installed "1" the comparison current[1] >= minimal[1] indexes
past the end of the installed tuple and an IndexError escapes. -/
theorem check_version_raises_on_short_installed :
    check_version "1.2" "1" = Except.error () := rfl

/-- C3 amended: checkVersion is defined (no exception) whenever the installed
version has at least as many components as the minimum declares; when the
installed version is shorter, it raises IndexError exactly when every
comparison up to the installed length passes (short-circuit evaluation
otherwise returns before the out-of-range access). -/
theorem check_version_error_characterization (minimal current : List Nat)
    (hmin : 1 ≤ minimal.length) (hmax : minimal.length ≤ 3)
    (hcur : 1 ≤ current.length) :
    (checkVersionCond minimal current = Except.error ()) ↔
      (current.length < minimal.length ∧
        ∀ i, i < current.length → minimal.getD i 0 ≤ current.getD i 0) := by
  match minimal, current with
  | [], _ => simp at hmin
  | _ :: _ :: _ :: _ :: _, _ => simp at hmax
  | m0 :: _, [] => simp at hcur
  | [m0], c0 :: crest =>
    rw [checkVersionCond_one]
    constructor
    · intro h
      exact Except.noConfusion h
    · intro h
      have hlt := h.1
      simp only [List.length_cons, List.length_nil] at hlt
      omega
  | [m0, m1], [c0] =>
    rw [checkVersionCond_two_short]
    by_cases h0 : c0 < m0
    · rw [if_pos h0]
      constructor
      · intro h
        exact Except.noConfusion h
      · intro h
        have hm0 : m0 ≤ c0 := by simpa using h.2 0 (by simp)
        omega
    · rw [if_neg h0]
      constructor
      · intro _
        refine ⟨by simp, ?_⟩
        intro i hi
        simp only [List.length_cons, List.length_nil] at hi
        have hi0 : i = 0 := by omega
        subst hi0
        simpa using Nat.not_lt.mp h0
      · intro _
        rfl
  | [m0, m1], c0 :: c1 :: crest =>
    rw [checkVersionCond_two]
    constructor
    · intro h
      exact Except.noConfusion h
    · intro h
      have hlt := h.1
      simp only [List.length_cons, List.length_nil] at hlt
      omega
  | [m0, m1, m2], [c0] =>
    rw [checkVersionCond_three_short1]
    by_cases h0 : c0 < m0
    · rw [if_pos h0]
      constructor
      · intro h
        exact Except.noConfusion h
      · intro h
        have hm0 : m0 ≤ c0 := by simpa using h.2 0 (by simp)
        omega
    · rw [if_neg h0]
      constructor
      · intro _
        refine ⟨by simp, ?_⟩
        intro i hi
        simp only [List.length_cons, List.length_nil] at hi
        have hi0 : i = 0 := by omega
        subst hi0
        simpa using Nat.not_lt.mp h0
      · intro _
        rfl
  | [m0, m1, m2], [c0, c1] =>
    rw [checkVersionCond_three_short2]
    by_cases h0 : c0 < m0
    · rw [if_pos h0]
      constructor
      · intro h
        exact Except.noConfusion h
      · intro h
        have hm0 : m0 ≤ c0 := by simpa using h.2 0 (by simp)
        omega
    · rw [if_neg h0]
      by_cases h1 : c1 < m1
      · rw [if_pos h1]
        constructor
        · intro h
          exact Except.noConfusion h
        · intro h
          have hm1 : m1 ≤ c1 := by simpa using h.2 1 (by simp)
          omega
      · rw [if_neg h1]
        constructor
        · intro _
          refine ⟨by simp, ?_⟩
          intro i hi
          simp only [List.length_cons, List.length_nil] at hi
          have hi01 : i = 0 ∨ i = 1 := by omega
          rcases hi01 with hi0 | hi1
          · subst hi0; simpa using Nat.not_lt.mp h0
          · subst hi1; simpa using Nat.not_lt.mp h1
        · intro _
          rfl
  | [m0, m1, m2], c0 :: c1 :: c2 :: crest =>
    rw [checkVersionCond_three]
    constructor
    · intro h
      exact Except.noConfusion h
    · intro h
      have hlt := h.1
      simp only [List.length_cons, List.length_nil] at hlt
      omega

theorem check_version_error_characterization_witness :
    (1 ≤ ([1, 2] : List Nat).length) ∧ (([1, 2] : List Nat).length ≤ 3) ∧
      (1 ≤ ([1] : List Nat).length) ∧
      ((checkVersionCond [1, 2] [1] = Except.error ()) ↔
        (([1] : List Nat).length < ([1, 2] : List Nat).length ∧
          ∀ i, i < ([1] : List Nat).length →
            ([1, 2] : List Nat).getD i 0 ≤ ([1] : List Nat).getD i 0)) :=
  ⟨by decide, by decide, by decide,
    check_version_error_characterization [1, 2] [1] (by decide) (by decide)
      (by decide)⟩

/-! ### ScriptWriter (viesco.py:13-82) -/

/-- A filesystem path as its list of components. -/
abbrev FsPath := List String

/-- Rendering of a path for message and script text.  The component separator
is fixed to "/" (str(Path) is host-dependent; no claim depends on it). -/
def renderPath (p : FsPath) : String :=
  String.intercalate "/" p

/-- Patcher.VERSION (viesco.py:86). -/
def VERSION : String := "1.0.0"

/-- pathlib suffix of the final path component: the part from the last dot,
provided that dot is neither the first nor the last character of the name. -/
def pySuffix (s : String) : String :=
  let name := (splitOnChar '/' s.toList).getLastD []
  match ((List.range name.length).filter
      (fun i => name.getD i ' ' == '.')).getLast? with
  | none => ""
  | some i =>
    if 0 < i && i < name.length - 1 then String.mk (name.drop i) else ""

/-- ScriptWriter state.  active records which method set the constructor
installed: true for the batch dialect bound methods, false for the _dummy
no-ops chosen when no output path was requested. -/
structure ScriptWriter where
  platform : String
  lines : List String
  active : Bool
deriving DecidableEq

/-- ScriptWriter._batch_prepare (viesco.py:68-69). -/
def batch_prepare (w : ScriptWriter) : ScriptWriter :=
  { w with lines := w.lines ++ ["@echo off"] }

/-- ScriptWriter.comment: _batch_comment when active (viesco.py:71-72),
_dummy when not. -/
def scriptComment (w : ScriptWriter) (ls : List String) : ScriptWriter :=
  if w.active then { w with lines := w.lines ++ ls.map (fun l => "rem " ++ l) }
  else w

/-- ScriptWriter.set_variable: _batch_set_variable when active
(viesco.py:74-75), _dummy when not. -/
def script_set_variable (w : ScriptWriter) (name value : String) : ScriptWriter :=
  if w.active then
    { w with lines := w.lines ++ ["set \"" ++ name ++ "=" ++ value ++ "\""] }
  else w

/-- The path emitted by _batch_remove_file (viesco.py:78-79): rewritten below
the %VSC_PATH% variable when the installation root is a strict ancestor
(install_path in path.parents), left unchanged otherwise. -/
def batchDeletePath (install p : FsPath) : FsPath :=
  if install.isPrefixOf p && p ≠ install then "%VSC_PATH%" :: p.drop install.length
  else p

/-- The two lines _batch_remove_file appends (viesco.py:81-82). -/
def batchRemoveLines (install p : FsPath) : List String :=
  ["echo :: Deleting " ++ renderPath (batchDeletePath install p) ++ "...",
    "del /F /Q " ++ renderPath (batchDeletePath install p)]

/-- ScriptWriter.remove_file: _batch_remove_file when active
(viesco.py:77-82), _dummy when not. -/
def remove_file (w : ScriptWriter) (install p : FsPath) : ScriptWriter :=
  if w.active then { w with lines := w.lines ++ batchRemoveLines install p }
  else w

/-- The comment block emitted by ScriptWriter.__init__ (viesco.py:40-58). -/
def headerComments (host_product host_version host_platform : String)
    (patch_names : List String) : List String :=
  ["This script was created AUTOMATICALLY using Viesco v" ++ VERSION,
    "for " ++ host_product ++ " v" ++ host_version ++ " on "
      ++ host_platform ++ ".",
    "",
    "Applied patches:",
    "  " ++ String.intercalate "," patch_names,
    "",
    "GitHub: https://github.com/noahrenes/viesco",
    "Codeberg: https://codeberg.org/renesnoah/viesco",
    "",
    "Viesco is free software; you can redistribute it and/or modify",
    "it under the terms of the GNU General Public License version 2",
    "as published by the Free Software Foundation.",
    "",
    "Viesco and this script is distributed in the hope that it will",
    "be useful, but WITHOUT ANY WARRANTY; without even the implied",
    "warranty of MERCHANTABILITY or FITNESS FOR A PARTICULAR ",
    "PURPOSE."]

/-- ScriptWriter.__init__ (viesco.py:14-59).  Except.error carries the
ValueError message raised for an unsupported output extension. -/
def mkScriptWriter (host_product host_version host_platform : String)
    (install_path : FsPath) (patch_names : List String)
    (output_path : Option String) : Except String ScriptWriter :=
  match output_path with
  | none => Except.ok { platform := "", lines := [], active := false }
  | some p =>
    let sfx := pySuffix p
    if sfx = ".bat" || sfx = ".cmd" then
      let w0 : ScriptWriter := { platform := "Windows", lines := [], active := true }
      let w1 := batch_prepare w0
      let w2 := scriptComment w1
        (headerComments host_product host_version host_platform patch_names)
      let w3 := script_set_variable w2 "VSC_PATH" (renderPath install_path)
      Except.ok w3
    else Except.error ("Unsupported output file extension " ++ sfx ++ ".")

/-- ScriptWriter.write (viesco.py:61-63): some content = the file is
created/overwritten with that exact text, none = no file is touched. -/
def write (w : ScriptWriter) : Option String :=
  if w.lines.isEmpty then none else some (String.intercalate "\n" w.lines)

/-- C7: write() writes a file iff the line buffer is non-empty; when it
writes, the content is exactly the buffered lines joined by newlines, and an
empty buffer never creates a file. -/
theorem write_iff_buffer_nonempty (w : ScriptWriter) :
    (write w = none ↔ w.lines = [])
    ∧ (w.lines ≠ [] → write w = some (String.intercalate "\n" w.lines)) := by
  constructor
  · unfold write
    by_cases h : w.lines.isEmpty
    · simp [h, List.isEmpty_iff.mp h]
    · simp only [h, if_false, Bool.false_eq_true]
      constructor
      · intro hcontra; cases hcontra
      · intro hnil
        exact absurd (by simp [hnil]) h
  · intro hne
    unfold write
    rw [if_neg (by simpa using hne)]

theorem write_iff_buffer_nonempty_witness :
    ((write { platform := "Windows", lines := ["@echo off"], active := true }
          = none
        ↔ ({ platform := "Windows", lines := ["@echo off"], active := true }
            : ScriptWriter).lines = [])
      ∧ (({ platform := "Windows", lines := ["@echo off"], active := true }
            : ScriptWriter).lines ≠ [] →
          write { platform := "Windows", lines := ["@echo off"], active := true }
            = some (String.intercalate "\n"
                ({ platform := "Windows", lines := ["@echo off"], active := true }
                  : ScriptWriter).lines))) :=
  write_iff_buffer_nonempty
    { platform := "Windows", lines := ["@echo off"], active := true }

/-! ### Exit statuses (viesco.py:110, 164, 314, 332) -/

/-- exit(1) on KeyboardInterrupt in _ask_to_skip_patch (viesco.py:110) and in
select_from (viesco.py:164). -/
def exitCodeUserCancel : Nat := 1

/-- exit(1) after an invalid installation path (viesco.py:314) and after the
ValueError from ScriptWriter construction (viesco.py:332). -/
def exitCodeConfigError : Nat := 1

/-- Normal process completion. -/
def exitCodeSuccess : Nat := 0

/-- C6 counterexample: the claim requires the user-cancellation exit code to
be distinct from the fatal-configuration exit code, but the program uses
exit(1) for both. -/
theorem exit_codes_not_distinct : exitCodeUserCancel = exitCodeConfigError :=
  rfl

/-- C6 amended: both abnormal exit statuses are non-zero and hence distinct
from the success status 0, but they are the same code (1), not distinct from
each other. -/
theorem exit_codes_nonzero_but_equal :
    exitCodeUserCancel ≠ exitCodeSuccess
    ∧ exitCodeConfigError ≠ exitCodeSuccess
    ∧ exitCodeUserCancel = exitCodeConfigError := by
  refine ⟨?_, ?_, rfl⟩ <;> decide

/-! ### Patcher.remove (viesco.py:254-279) -/

/-- A console message: its severity level and its text (the arguments of one
Patcher.print call, space-joined as print would). -/
structure Msg where
  level : String
  text : String
deriving DecidableEq

/-- Python `x or fallback` for strings in the debug message (viesco.py:275-277). -/
def displayOr (s fallback : String) : String :=
  if s = "" then fallback else s

/-- path_str after the is_relative_to rewrite (viesco.py:256-257); relative_to
of the root itself is ".". -/
def pathStrOf (install p : FsPath) : FsPath :=
  if install.isPrefixOf p then
    (if p = install then ["."] else p.drop install.length)
  else p

/-- The debug line printed when a remove call targets neither the host disk
nor the script (viesco.py:272-279). -/
def ignoredMsg (path_str : String) (platform host_platform target_platform : String) :
    Msg :=
  { level := "debug",
    text := "Ignored " ++ path_str ++ ". (expected: "
      ++ displayOr platform "<any>" ++ ", host: "
      ++ displayOr host_platform "<unknown>" ++ ", target: "
      ++ displayOr target_platform "<none>" ++ ")" }

/-- Patcher.remove (viesco.py:254-279).  State touched: the disk (a list of
existing paths; unlink with missing_ok=True is total) and the script writer.
Returns the new disk, the new writer and the console messages in order. -/
def remove (dry_run : Bool) (host_platform : String) (install_path : FsPath)
    (disk : List FsPath) (w : ScriptWriter) (p : FsPath) (platform : String) :
    List FsPath × ScriptWriter × List Msg :=
  let path_str := renderPath (pathStrOf install_path p)
  let is_targeting_host :=
    !dry_run && (platform == "" || platform == host_platform)
  let is_targeting_output :=
    !w.lines.isEmpty && (platform == "" || platform == w.platform)
  let disk2 := if is_targeting_host then disk.filter (fun q => q ≠ p) else disk
  let msgs1 :=
    if is_targeting_host then
      [({ level := "info", text := "Removed " ++ path_str ++ "." } : Msg)]
    else []
  if is_targeting_output then
    let w2 := remove_file w install_path p
    let msgs2 :=
      if !is_targeting_host then
        [({ level := "info",
            text := "The script will remove " ++ path_str ++ "." } : Msg)]
      else []
    (disk2, w2, msgs1 ++ msgs2)
  else if !is_targeting_host then
    (disk2, w, msgs1 ++ [ignoredMsg path_str platform host_platform w.platform])
  else
    (disk2, w, msgs1)

/-- C4: with no platform restriction on the call, remove unlinks from disk iff
dryRun is false (unlinking an absent path is total, hence error-free), and
appends the two deletion lines iff a script target is active; the scripted
path is rewritten under the root variable exactly when the path is strictly
inside the installation root.  The disk and script effects are characterized
independently, matching the dryRun x activeScriptTarget table. -/
theorem remove_effect_table (dry_run : Bool) (host_platform : String)
    (install : FsPath) (disk : List FsPath) (w : ScriptWriter) (p : FsPath)
    (hw : w.active = true ↔ w.lines ≠ []) :
    ((remove dry_run host_platform install disk w p "").1
      = (if dry_run then disk else disk.filter (fun q => q ≠ p)))
    ∧ ((remove dry_run host_platform install disk w p "").2.1.lines
      = (if w.active then w.lines ++ batchRemoveLines install p else w.lines))
    ∧ (install.isPrefixOf p ∧ p ≠ install →
        batchDeletePath install p = "%VSC_PATH%" :: p.drop install.length)
    ∧ (¬(install.isPrefixOf p ∧ p ≠ install) → batchDeletePath install p = p) := by
  refine ⟨?_, ?_, ?_, ?_⟩
  · cases dry_run <;>
      simp only [remove, Bool.not_true, Bool.not_false, Bool.false_and,
        Bool.true_and, beq_self_eq_true, Bool.true_or, if_true, if_false] <;>
    by_cases ho : w.lines.isEmpty <;> simp [ho]
  · by_cases ha : w.active
    · have hne : w.lines ≠ [] := hw.mp ha
      have ho : w.lines.isEmpty = false := by simpa using hne
      cases dry_run <;>
        simp [remove, remove_file, ho, ha]
    · have hnil : w.lines = [] := by
        by_contra hne
        exact ha (hw.mpr hne)
      have ho : w.lines.isEmpty = true := by simp [hnil]
      cases dry_run <;>
        simp [remove, remove_file, ho, ha]
  · intro h
    unfold batchDeletePath
    rw [if_pos (by simp [h.1, h.2])]
  · intro h
    unfold batchDeletePath
    rw [if_neg ?_]
    intro hcontra
    simp only [Bool.and_eq_true, decide_eq_true_eq] at hcontra
    exact h ⟨hcontra.1, hcontra.2⟩

theorem remove_effect_table_witness :
    ((({ platform := "Windows", lines := ["@echo off"], active := true }
          : ScriptWriter).active = true
        ↔ ({ platform := "Windows", lines := ["@echo off"], active := true }
            : ScriptWriter).lines ≠ [])
      ∧ (((remove false "Linux" ["r"] [["r", "a.pak"]]
            { platform := "Windows", lines := ["@echo off"], active := true }
            ["r", "a.pak"] "").1
          = (if false then [[("r" : String), "a.pak"]]
              else [[("r" : String), "a.pak"]].filter
                (fun q => q ≠ ["r", "a.pak"])))
        ∧ ((remove false "Linux" ["r"] [["r", "a.pak"]]
            { platform := "Windows", lines := ["@echo off"], active := true }
            ["r", "a.pak"] "").2.1.lines
          = (if ({ platform := "Windows", lines := ["@echo off"], active := true }
                : ScriptWriter).active
              then ({ platform := "Windows", lines := ["@echo off"], active := true }
                : ScriptWriter).lines ++ batchRemoveLines ["r"] ["r", "a.pak"]
              else ({ platform := "Windows", lines := ["@echo off"], active := true }
                : ScriptWriter).lines))
        ∧ ((["r"] : FsPath).isPrefixOf ["r", "a.pak"]
              ∧ (["r", "a.pak"] : FsPath) ≠ ["r"] →
            batchDeletePath ["r"] ["r", "a.pak"]
              = "%VSC_PATH%" :: (["r", "a.pak"] : FsPath).drop
                  (["r"] : FsPath).length)
        ∧ (¬((["r"] : FsPath).isPrefixOf ["r", "a.pak"]
              ∧ (["r", "a.pak"] : FsPath) ≠ ["r"]) →
            batchDeletePath ["r"] ["r", "a.pak"] = ["r", "a.pak"]))) :=
  ⟨by decide,
    remove_effect_table false "Linux" ["r"] [["r", "a.pak"]]
      { platform := "Windows", lines := ["@echo off"], active := true }
      ["r", "a.pak"] (by decide)⟩

/-- C10: remove takes an optional platform argument.  When it is non-empty,
the disk unlink additionally requires the argument to equal the host platform,
and the script lines are appended exactly when the buffer is live and the
argument equals the script target's platform; a script successfully
constructed for an output path always has target platform "Windows" (the
batch dialect).  When both targets are suppressed, the only console output is
the single debug Ignored line. -/
theorem remove_platform_argument (dry_run : Bool) (host_platform : String)
    (install : FsPath) (disk : List FsPath) (w : ScriptWriter) (p : FsPath)
    (platform : String) (hp : platform ≠ "")
    (hw : w.active = true ↔ w.lines ≠ []) :
    ((remove dry_run host_platform install disk w p platform).1
      = (if !dry_run && (platform == host_platform)
          then disk.filter (fun q => q ≠ p) else disk))
    ∧ ((remove dry_run host_platform install disk w p platform).2.1.lines
      = (if !w.lines.isEmpty && (platform == w.platform)
          then w.lines ++ batchRemoveLines install p else w.lines))
    ∧ ((!dry_run && (platform == host_platform)) = false →
        (!w.lines.isEmpty && (platform == w.platform)) = false →
        (remove dry_run host_platform install disk w p platform).2.2
          = [ignoredMsg (renderPath (pathStrOf install p)) platform
              host_platform w.platform])
    ∧ (∀ (prod ver hplat : String) (ipath : FsPath) (names : List String)
        (opath : String) (w2 : ScriptWriter),
        mkScriptWriter prod ver hplat ipath names (some opath) = Except.ok w2 →
        w2.platform = "Windows") := by
  have hpb : (platform == "") = false := by
    simpa using hp
  refine ⟨?_, ?_, ?_, ?_⟩
  · by_cases hh : (!dry_run && (platform == host_platform)) = true
    · simp only [remove, hpb, Bool.false_or, hh, if_true]
      by_cases ho : (!w.lines.isEmpty && (platform == w.platform)) = true <;>
        simp [ho]
    · rw [Bool.not_eq_true] at hh
      simp only [remove, hpb, Bool.false_or, hh, if_false]
      by_cases ho : (!w.lines.isEmpty && (platform == w.platform)) = true <;>
        simp [ho]
  · by_cases ho : (!w.lines.isEmpty && (platform == w.platform)) = true
    · have hne : w.lines ≠ [] := by
        rcases Bool.and_eq_true_iff.mp ho with ⟨h1, _⟩
        simpa using h1
      have ha : w.active = true := hw.mpr hne
      by_cases hh : (!dry_run && (platform == host_platform)) = true <;>
        simp [remove, remove_file, hpb, ho, hh, ha]
    · rw [Bool.not_eq_true] at ho
      by_cases hh : (!dry_run && (platform == host_platform)) = true <;>
        simp [remove, remove_file, hpb, ho, hh]
  · intro hh ho
    simp [remove, hpb, hh, ho]
  · intro prod ver hplat ipath names opath w2 hmk
    simp only [mkScriptWriter] at hmk
    by_cases hs : (pySuffix opath = ".bat" || pySuffix opath = ".cmd") = true
    · rw [if_pos hs] at hmk
      cases hmk
      rfl
    · rw [Bool.not_eq_true] at hs
      rw [if_neg (by simp [hs])] at hmk
      cases hmk

theorem remove_platform_argument_witness :
    (("Windows" : String) ≠ "")
    ∧ (({ platform := "", lines := [], active := false } : ScriptWriter).active
          = true
        ↔ ({ platform := "", lines := [], active := false }
            : ScriptWriter).lines ≠ [])
    ∧ (((remove false "Linux" ["r"] [["u", "h"]]
          { platform := "", lines := [], active := false } ["u", "h"]
          "Windows").1
        = (if !false && (("Windows" : String) == "Linux")
            then [[("u" : String), "h"]].filter (fun q => q ≠ ["u", "h"])
            else [[("u" : String), "h"]]))
      ∧ ((remove false "Linux" ["r"] [["u", "h"]]
          { platform := "", lines := [], active := false } ["u", "h"]
          "Windows").2.1.lines
        = (if !({ platform := "", lines := [], active := false }
              : ScriptWriter).lines.isEmpty
              && (("Windows" : String)
                == ({ platform := "", lines := [], active := false }
                  : ScriptWriter).platform)
            then ({ platform := "", lines := [], active := false }
                : ScriptWriter).lines ++ batchRemoveLines ["r"] ["u", "h"]
            else ({ platform := "", lines := [], active := false }
                : ScriptWriter).lines))
      ∧ ((!false && (("Windows" : String) == "Linux")) = false →
          (!({ platform := "", lines := [], active := false }
              : ScriptWriter).lines.isEmpty
            && (("Windows" : String)
              == ({ platform := "", lines := [], active := false }
                : ScriptWriter).platform)) = false →
          (remove false "Linux" ["r"] [["u", "h"]]
            { platform := "", lines := [], active := false } ["u", "h"]
            "Windows").2.2
          = [ignoredMsg (renderPath (pathStrOf ["r"] ["u", "h"])) "Windows"
              "Linux"
              ({ platform := "", lines := [], active := false }
                : ScriptWriter).platform])
      ∧ (∀ (prod ver hplat : String) (ipath : FsPath) (names : List String)
          (opath : String) (w2 : ScriptWriter),
          mkScriptWriter prod ver hplat ipath names (some opath)
            = Except.ok w2 → w2.platform = "Windows")) :=
  ⟨by decide, by decide,
    remove_platform_argument false "Linux" ["r"] [["u", "h"]]
      { platform := "", lines := [], active := false } ["u", "h"] "Windows"
      (by decide) (by decide)⟩

/-! ### Interactive selector (viesco.py:152-224) -/

/-- Ceiling division; math.ceil of a float quotient is exact on the integer
sizes involved. -/
def ceilDiv (a b : Nat) : Nat := (a + b - 1) / b

/-- Python range(start, stop, step) for a positive step. -/
def rangeStep (start stop step : Nat) : List Nat :=
  (List.range (ceilDiv (stop - start) step)).map (fun j => start + j * step)

/-- The table built by Patcher.print_items_with_index (viesco.py:195-214), as
rows of (1-based index, label) pairs.  The column count is
round(len(items) ** 0.4) in the source; it is passed here as the parameter c:
the float expression is exact at 0 (round(0 ** 0.4) = 0) and is at least 1 on
any non-empty item list.  A zero column count makes the row-count division
ceil(items_len / columns_n) raise ZeroDivisionError, modelled as
Except.error.  Row `offset` holds items offset, offset + rows_n,
offset + 2 * rows_n, ... in order. -/
def print_items_with_index (c : Nat) (items : List String) :
    Except Unit (List (List (Nat × String))) :=
  if c = 0 then Except.error ()
  else
    let r := ceilDiv items.length c
    Except.ok ((List.range r).map (fun offset =>
      (rangeStep offset items.length r).map
        (fun i => (i + 1, items.getD i ""))))

/-- One token resolution of Patcher.select_from (viesco.py:168-185): exact
label match first (labels.index); on ValueError, Python int() minus 1,
validated against 0 <= idx <= max_items_idx.  none = the token is collected
as invalid. -/
def resolveToken {α : Type} (items : List (String × α)) (tok : String) :
    Option α :=
  match (items.map Prod.fst).findIdx? (fun l => l == tok) with
  | some idx => (items.get? idx).map Prod.snd
  | none =>
    match pyInt? tok with
    | none => none
    | some k =>
      let label_idx := k - 1
      if label_idx < 0 || (items.length : Int) - 1 < label_idx then none
      else (items.get? label_idx.toNat).map Prod.snd

/-- One iteration of the select_from input loop (viesco.py:166-193): the line
is split on commas with no trimming; every token is resolved; if any token is
invalid the whole line is rejected with the invalid-token list (inl),
otherwise all resolved values are returned in token order (inr). -/
def resolveLine {α : Type} (items : List (String × α)) (line : String) :
    Sum (List String) (List α) :=
  let toks := (splitOnChar ',' line.toList).map String.mk
  let results := toks.map (fun t => (t, resolveToken items t))
  let invalid := (results.filter (fun r => r.2.isNone)).map Prod.fst
  if invalid.isEmpty then Sum.inr (results.filterMap Prod.snd)
  else Sum.inl invalid

/-- The retry loop of select_from over the successive input lines; none
models a loop still blocked waiting for further input. -/
def selectLoop {α : Type} (items : List (String × α)) :
    List String → Option (List α)
  | [] => none
  | line :: rest =>
    match resolveLine items line with
    | Sum.inr vals => some vals
    | Sum.inl _ => selectLoop items rest

/-- Patcher.select_from (viesco.py:152-193) with the console made explicit:
the table is rendered (viesco.py:157) before the first prompt, so a layout
error escapes regardless of input. -/
def select_from {α : Type} (items : List (String × α)) (c : Nat)
    (inputs : List String) : Except Unit (Option (List α)) :=
  match print_items_with_index c (items.map Prod.fst) with
  | Except.error e => Except.error e
  | Except.ok _ => Except.ok (selectLoop items inputs)

/-- C5 counterexample: the claim says every token carrying an accidental
leading or trailing space fails both resolutions and is reported invalid; but
with candidates en, fr, de the input " 2" resolves: int(" 2") ignores the
surrounding whitespace and selects the second value. -/
theorem spaced_index_token_resolves :
    resolveLine [("en", 0), ("fr", 1), ("de", 2)] " 2" = Sum.inr [1] := rfl

/-- C5 amended: the input line is split on commas with no trimming and label
resolution is exact-match, so a token with an accidental space never matches a
label; but the fallback index path uses Python int(), which ignores
surrounding whitespace, so a numeric token with accidental spaces still
resolves to the value at its 1-based index.  A token matching no label is
invalid iff int() fails on it or the parsed index is out of range. -/
theorem non_label_token_resolution {α : Type} (items : List (String × α))
    (tok : String) (hnl : ∀ l ∈ items.map Prod.fst, l ≠ tok) :
    (∀ k : Int, pyInt? tok = some k → 1 ≤ k → k ≤ items.length →
      resolveToken items tok = (items.get? (k - 1).toNat).map Prod.snd)
    ∧ (pyInt? tok = none → resolveToken items tok = none)
    ∧ (∀ k : Int, pyInt? tok = some k → (k < 1 ∨ (items.length : Int) < k) →
      resolveToken items tok = none) := by
  have hfind : (items.map Prod.fst).findIdx? (fun l => l == tok) = none := by
    rw [List.findIdx?_eq_none_iff]
    intro l hl
    simpa using hnl l hl
  refine ⟨?_, ?_, ?_⟩
  · intro k hk h1 h2
    simp only [resolveToken, hfind, hk]
    have hcond : ¬((decide (k - 1 < 0)
        || decide ((items.length : Int) - 1 < k - 1)) = true) := by
      simp only [Bool.or_eq_true, decide_eq_true_eq]
      omega
    rw [if_neg hcond]
  · intro hk
    simp only [resolveToken, hfind, hk]
  · intro k hk hrange
    simp only [resolveToken, hfind, hk]
    have hcond : (decide (k - 1 < 0)
        || decide ((items.length : Int) - 1 < k - 1)) = true := by
      simp only [Bool.or_eq_true, decide_eq_true_eq]
      omega
    rw [if_pos hcond]

theorem non_label_token_resolution_witness :
    (∀ l ∈ ([("en", 0), ("fr", 1), ("de", 2)] : List (String × Nat)).map
        Prod.fst, l ≠ " 2")
    ∧ ((∀ k : Int, pyInt? " 2" = some k → 1 ≤ k →
        k ≤ ([("en", 0), ("fr", 1), ("de", 2)] : List (String × Nat)).length →
        resolveToken [("en", 0), ("fr", 1), ("de", 2)] " 2"
          = (([("en", 0), ("fr", 1), ("de", 2)] : List (String × Nat)).get?
              (k - 1).toNat).map Prod.snd)
      ∧ (pyInt? " 2" = none →
          resolveToken [("en", 0), ("fr", 1), ("de", 2)] " 2" = none)
      ∧ (∀ k : Int, pyInt? " 2" = some k →
          (k < 1 ∨
            (([("en", 0), ("fr", 1), ("de", 2)]
              : List (String × Nat)).length : Int) < k) →
          resolveToken [("en", 0), ("fr", 1), ("de", 2)] " 2" = none)) :=
  ⟨by decide, non_label_token_resolution [("en", 0), ("fr", 1), ("de", 2)] " 2"
    (by decide)⟩

/-- C9: select_from on an empty candidate mapping computes a column count of
round(0 ** 0.4) = 0 (exact in floating point), so the row-count division
raises ZeroDivisionError while rendering the table, before any input line is
consumed; with a non-empty candidate set the column count is at least 1 and
select_from is total. -/
theorem select_from_empty_raises {α : Type} (inputs : List String)
    (items : List (String × α)) (c : Nat) (hc : 1 ≤ c) :
    select_from ([] : List (String × α)) 0 inputs = Except.error ()
    ∧ ∃ res, select_from items c inputs = Except.ok res := by
  constructor
  · rfl
  · rw [select_from, print_items_with_index]
    rw [if_neg (by omega)]
    exact ⟨selectLoop items inputs, rfl⟩

theorem select_from_empty_raises_witness :
    1 ≤ 1
    ∧ (select_from ([] : List (String × Nat)) 0 ["x"] = Except.error ()
      ∧ ∃ res, select_from [("en", 0)] 1 ["x"] = Except.ok res) :=
  ⟨by decide, select_from_empty_raises ["x"] [("en", 0)] 1 (by decide)⟩

/-! ### Layout lemmas for the selector table (C8) -/

theorem lt_ceilDiv_iff (a b x : Nat) (hb : 1 ≤ b) :
    x < ceilDiv a b ↔ x * b < a := by
  unfold ceilDiv
  rw [Nat.lt_iff_add_one_le, Nat.le_div_iff_mul_le (by omega)]
  have h : (x + 1) * b = x * b + b := by ring
  omega

theorem le_ceilDiv_mul (a b : Nat) (hb : 1 ≤ b) : a ≤ ceilDiv a b * b := by
  by_contra h
  push_neg at h
  exact absurd ((lt_ceilDiv_iff a b (ceilDiv a b) hb).mpr h) (lt_irrefl _)

theorem rangeStep_get? (start stop step j : Nat) (hs : 1 ≤ step) :
    (rangeStep start stop step).get? j
      = if start + j * step < stop then some (start + j * step) else none := by
  unfold rangeStep
  rw [List.get?_map]
  by_cases h : j < ceilDiv (stop - start) step
  · rw [List.get?_range h, if_pos ?_]
    · rfl
    · have := (lt_ceilDiv_iff (stop - start) step j hs).mp h
      omega
  · have h2 : (List.range (ceilDiv (stop - start) step)).get? j = none := by
      rw [List.get?_eq_none]
      simp only [List.length_range]
      omega
    rw [h2, if_neg ?_]
    · rfl
    · intro hcontra
      exact h ((lt_ceilDiv_iff (stop - start) step j hs).mpr (by omega))

theorem rangeStep_succ_hit (off n r : Nat) (hr : 1 ≤ r) (hoff : off = n % r) :
    rangeStep off (n + 1) r = rangeStep off n r ++ [n] := by
  have hq : off + n / r * r = n := by
    have h1 := Nat.mod_add_div n r
    have h2 : n / r * r = r * (n / r) := Nat.mul_comm _ _
    omega
  have hlen : (rangeStep off n r).length = n / r := by
    unfold rangeStep
    simp only [List.length_map, List.length_range]
    have hsub : n - off = n / r * r := by omega
    rw [hsub]
    unfold ceilDiv
    have hrw : n / r * r + r - 1 = (r - 1) + (n / r) * r := by omega
    rw [hrw, Nat.add_mul_div_right _ _ (by omega), Nat.div_eq_of_lt (by omega),
      Nat.zero_add]
  apply List.ext_get?
  intro j
  rw [rangeStep_get? _ _ _ _ hr]
  by_cases hj : off + j * r < n
  · have hjq : j < n / r := by
      apply Nat.lt_of_mul_lt_mul_right (a := r)
      omega
    rw [if_pos (by omega)]
    rw [List.get?_append (by omega)]
    rw [rangeStep_get? _ _ _ _ hr, if_pos hj]
  · by_cases hjq : j = n / r
    · subst hjq
      rw [if_pos (by omega)]
      have := List.get?_concat_length (rangeStep off n r) n
      rw [hlen] at this
      rw [this, hq]
    · have hgt : n / r < j := by
        rcases Nat.lt_or_ge j (n / r) with hlt | hge
        · exfalso
          have hmul : (j + 1) * r ≤ n / r * r :=
            Nat.mul_le_mul_right r (by omega)
          have hexp : (j + 1) * r = j * r + r := by ring
          omega
        · omega
      rw [if_neg ?_]
      · rw [List.get?_eq_none.mpr]
        simp only [List.length_append, List.length_cons, List.length_nil, hlen]
        omega
      · have hmul : (n / r + 1) * r ≤ j * r :=
          Nat.mul_le_mul_right r (by omega)
        have hexp : (n / r + 1) * r = n / r * r + r := by ring
        omega

theorem rangeStep_succ_miss (off n r : Nat) (hr : 1 ≤ r) (hoff : off < r)
    (hne : off ≠ n % r) :
    rangeStep off (n + 1) r = rangeStep off n r := by
  apply List.ext_get?
  intro j
  rw [rangeStep_get? _ _ _ _ hr, rangeStep_get? _ _ _ _ hr]
  have hne2 : off + j * r ≠ n := by
    intro hcontra
    apply hne
    have hmod : (off + j * r) % r = off := by
      rw [Nat.add_mul_mod_self_right]
      exact Nat.mod_eq_of_lt hoff
    rw [← hcontra, hmod]
  have hiff : (off + j * r < n + 1) ↔ (off + j * r < n) := by omega
  exact if_congr hiff rfl rfl

theorem flatten_map_range_swap (r k : Nat) (hk : k < r) (f g : Nat → List Nat)
    (x : Nat) (hsame : ∀ j, j < r → j ≠ k → f j = g j)
    (hfk : f k = g k ++ [x]) :
    (((List.range r).map f).flatten).Perm
      ((((List.range r).map g).flatten) ++ [x]) := by
  have hr : r = (k + 1) + (r - (k + 1)) := by omega
  rw [hr, List.range_add, List.range_succ]
  simp only [List.map_append, List.flatten_append, List.map_cons,
    List.map_nil, List.flatten_cons, List.flatten_nil, List.map_map,
    List.append_nil]
  have hpre : (List.range k).map f = (List.range k).map g := by
    apply List.map_congr_left
    intro a ha
    rw [List.mem_range] at ha
    exact hsame a (by omega) (by omega)
  have hpost : (List.range (r - (k + 1))).map (f ∘ fun b => k + 1 + b)
      = (List.range (r - (k + 1))).map (g ∘ fun b => k + 1 + b) := by
    apply List.map_congr_left
    intro a ha
    simp only [Function.comp]
    exact hsame (k + 1 + a) (by rw [List.mem_range] at ha; omega) (by omega)
  rw [hpre, hpost, hfk]
  simp only [List.append_assoc]
  apply List.Perm.append_left
  apply List.Perm.append_left
  exact List.perm_append_comm

theorem flatten_rangeStep_perm (r : Nat) (hr : 1 ≤ r) (n : Nat) :
    (((List.range r).map (fun off => rangeStep off n r)).flatten).Perm
      (List.range n) := by
  induction n with
  | zero =>
    have hz : ∀ off, rangeStep off 0 r = [] := by
      intro off
      unfold rangeStep ceilDiv
      rw [Nat.zero_sub, Nat.zero_add, Nat.div_eq_of_lt (by omega)]
      rfl
    simp [hz]
  | succ n ih =>
    have hk : n % r < r := Nat.mod_lt _ (by omega)
    have step := flatten_map_range_swap r (n % r) hk
      (fun off => rangeStep off (n + 1) r) (fun off => rangeStep off n r) n
      (fun j hj hne => rangeStep_succ_miss j n r hr hj
        (fun hcontra => hne hcontra))
      (rangeStep_succ_hit (n % r) n r hr rfl)
    have hfin : List.range n ++ [n] = List.range (n + 1) :=
      (List.range_succ n).symm
    exact step.trans (hfin ▸ List.Perm.append_right [n] ih)

/-- C8: with the column count c = round(N ** 0.4) (taken as a parameter; the
same expression appears in claim and code, and it is at least 1 for N >= 1)
and r = ceil(N / c) rows, the rendering of print_items_with_index places the
item at 0-based position i in row i mod r at column position i div r, every
used column index is below c, and the 1-based indices of the table are
exactly a permutation of 1..N (each appears exactly once). -/
theorem print_items_layout (c : Nat) (items : List String) (hc : 1 ≤ c) :
    ∃ rows, print_items_with_index c items = Except.ok rows
      ∧ rows.length = ceilDiv items.length c
      ∧ (∀ i, i < items.length →
          ∃ row, rows.get? (i % ceilDiv items.length c) = some row
            ∧ row.get? (i / ceilDiv items.length c)
                = some (i + 1, items.getD i "")
            ∧ i / ceilDiv items.length c < c)
      ∧ ((rows.map (fun row => row.map Prod.fst)).flatten).Perm
          ((List.range items.length).map (fun i => i + 1)) := by
  refine ⟨(List.range (ceilDiv items.length c)).map (fun offset =>
    (rangeStep offset items.length (ceilDiv items.length c)).map
      (fun i => (i + 1, items.getD i ""))), ?_, ?_, ?_, ?_⟩
  · unfold print_items_with_index
    rw [if_neg (by omega)]
  · simp
  · intro i hi
    have hrpos : 1 ≤ ceilDiv items.length c := by
      rw [Nat.succ_le_iff]
      rw [show (0 = 0 * c) from (Nat.zero_mul c).symm] at *
      rw [lt_ceilDiv_iff _ _ _ hc]
      omega
    have hmod : i % ceilDiv items.length c < ceilDiv items.length c :=
      Nat.mod_lt _ (by omega)
    refine ⟨(rangeStep (i % ceilDiv items.length c) items.length
      (ceilDiv items.length c)).map (fun i => (i + 1, items.getD i "")),
      ?_, ?_, ?_⟩
    · rw [List.get?_map, List.get?_range hmod]
      rfl
    · rw [List.get?_map, rangeStep_get? _ _ _ _ hrpos]
      have hrec : i % ceilDiv items.length c
          + i / ceilDiv items.length c * ceilDiv items.length c = i := by
        have h1 := Nat.mod_add_div i (ceilDiv items.length c)
        have h2 : i / ceilDiv items.length c * ceilDiv items.length c
            = ceilDiv items.length c * (i / ceilDiv items.length c) :=
          Nat.mul_comm _ _
        omega
      rw [if_pos (by omega), hrec]
      rfl
    · rw [Nat.div_lt_iff_lt_mul (by omega)]
      have := le_ceilDiv_mul items.length c hc
      have hcomm : c * ceilDiv items.length c = ceilDiv items.length c * c :=
        Nat.mul_comm _ _
      omega
  · have hmapped : ((List.range (ceilDiv items.length c)).map (fun offset =>
        (rangeStep offset items.length (ceilDiv items.length c)).map
          (fun i => (i + 1, items.getD i "")))).map
        (fun row => row.map Prod.fst)
        = (List.range (ceilDiv items.length c)).map (fun offset =>
            (rangeStep offset items.length (ceilDiv items.length c)).map
              (fun i => i + 1)) := by
      simp [List.map_map, Function.comp]
    rw [hmapped]
    rcases Nat.eq_zero_or_pos items.length with hn | hn
    · have hr0 : ceilDiv items.length c = 0 := by
        unfold ceilDiv
        rw [hn, Nat.zero_add, Nat.div_eq_of_lt (by omega)]
      rw [hr0, hn]
      simp
    · have hrpos : 1 ≤ ceilDiv items.length c := by
        rw [Nat.succ_le_iff]
        rw [show (0 = 0 * c) from (Nat.zero_mul c).symm] at *
        rw [lt_ceilDiv_iff _ _ _ hc]
        omega
      have hsplit : ∀ offset, (rangeStep offset items.length
            (ceilDiv items.length c)).map (fun i => i + 1)
          = (fun l => l.map (fun i => i + 1))
              (rangeStep offset items.length (ceilDiv items.length c)) := by
        intro offset
        rfl
      have hflat : ((List.range (ceilDiv items.length c)).map (fun offset =>
            (rangeStep offset items.length (ceilDiv items.length c)).map
              (fun i => i + 1))).flatten
          = (((List.range (ceilDiv items.length c)).map (fun offset =>
              rangeStep offset items.length (ceilDiv items.length c))).flatten).map
              (fun i => i + 1) := by
        rw [List.map_flatten, List.map_map]
        rfl
      rw [hflat]
      exact List.Perm.map _ (flatten_rangeStep_perm _ hrpos items.length)

theorem print_items_layout_witness :
    1 ≤ 2
    ∧ (∃ rows, print_items_with_index 2 ["a", "b", "c"] = Except.ok rows
      ∧ rows.length = ceilDiv (["a", "b", "c"] : List String).length 2
      ∧ (∀ i, i < (["a", "b", "c"] : List String).length →
          ∃ row,
            rows.get? (i % ceilDiv (["a", "b", "c"] : List String).length 2)
              = some row
            ∧ row.get? (i / ceilDiv (["a", "b", "c"] : List String).length 2)
                = some (i + 1, (["a", "b", "c"] : List String).getD i "")
            ∧ i / ceilDiv (["a", "b", "c"] : List String).length 2 < 2)
      ∧ ((rows.map (fun row => row.map Prod.fst)).flatten).Perm
          ((List.range (["a", "b", "c"] : List String).length).map
            (fun i => i + 1))) :=
  ⟨by decide, print_items_layout 2 ["a", "b", "c"] (by decide)⟩

/-! ### Patch validation lifecycle (viesco.py:88-133 and 316-326) -/

/-- Python str.lower() on ASCII input. -/
def pyLower (s : String) : String :=
  String.mk (s.toList.map Char.toLower)

/-- The Patcher state bits driving the check phase: _skip_patch
(viesco.py:93) and _current_patch (viesco.py:94). -/
structure CheckState where
  skip_patch : Bool
  current_patch : String
deriving DecidableEq

/-- The initial Patcher state (viesco.py:93-94). -/
def initialCheckState : CheckState :=
  { skip_patch := false, current_patch := "" }

/-- The interaction trace of one compatibility check inside a validator:
either the check passes (no prompt), or it fails and _ask_to_skip_patch
prompts, with the user answering ans. -/
inductive CheckEvent where
  | pass
  | failWithAnswer (ans : String)
deriving DecidableEq

/-- Patcher._ask_to_skip_patch (viesco.py:103-110): any answer other than "n"
(case-insensitive) sets _skip_patch; exactly "n" clears it. -/
def ask_to_skip_patch (st : CheckState) (ans : String) : CheckState :=
  { st with skip_patch := pyLower ans != "n" }

/-- A validator body as the sequence of its check outcomes (each
check_product_name / check_version call either passes silently or enters
_ask_to_skip_patch). -/
def runValidator (st : CheckState) : List CheckEvent → CheckState
  | [] => st
  | CheckEvent.pass :: rest => runValidator st rest
  | CheckEvent.failWithAnswer ans :: rest =>
    runValidator (ask_to_skip_patch st ans) rest

/-- Patcher.validate_patch (viesco.py:130-133): sets _current_patch, runs the
validator, and returns (state, not _skip_patch).  Note that it does not reset
_skip_patch before running the validator. -/
def validate_patch (st : CheckState) (name : String)
    (events : List CheckEvent) : CheckState × Bool :=
  let st2 := { st with current_patch := name }
  let st3 := runValidator st2 events
  (st3, !st3.skip_patch)

/-- The driver's check loop (viesco.py:316-326): each found patch runs
validate_patch on the shared Patcher, and is queued for the apply phase iff
it returns true. -/
def driverChecks (st : CheckState) :
    List (String × List CheckEvent) → CheckState × List String
  | [] => (st, [])
  | (name, events) :: rest =>
    let res := validate_patch st name events
    let res2 := driverChecks res.1 rest
    (res2.1, if res.2 then name :: res2.2 else res2.2)

/-- C1 (code bug): the claim (and the spec) says _skip_patch is reset before
each patch's check phase, so a patch whose checks all pass is queued for the
apply phase regardless of earlier skips.  The code never resets the flag: in
a run where patch "a" fails a check and the user answers "y" (skip), the
following patch "b" whose checks all pass is dropped from the apply phase,
while the same patch "b" checked from a fresh state is queued. -/
theorem skip_flag_leaks_across_patches :
    (driverChecks initialCheckState
        [("a", [CheckEvent.failWithAnswer "y"]), ("b", [CheckEvent.pass])]).2
      = []
    ∧ (driverChecks initialCheckState [("b", [CheckEvent.pass])]).2 = ["b"] := by
  constructor <;> rfl

end Viesco
